import Mathlib

/-!
Shallow embedding of the asynchronous job orchestration and progress-streaming
subsystem of `src/app.py` (PodcastTranscriberSite), together with proofs of the
specification's claims about it.

Conventions of the embedding:
* Python floats are modelled as rationals (`ℚ`); `int(x)` is truncation toward
  zero (`pyInt`), `x // y` is float floor division (`pyFloorDiv`), `x % y` is
  Python's modulo with the divisor's sign for positive divisors
  (`pyMod a b = a - b * (a // b)`).
* The float literal `1.2` in `audio_duration * 1.2` is modelled as the exact
  rational `6/5`.
* The global dict `jobs` (guarded by `jobs_lock`) is an association list from
  job id to `JobState`; each critical section of the Python code (one
  `with jobs_lock:` block) is one atomic operation on that list.
* The background worker `transcribe_job_worker` is modelled by the sequence of
  store operations it performs (`workerTrace`), parameterised by the outcome of
  its fallible collaborator calls (`WorkerOutcome`) and by the wall-clock
  `elapsed` values observed at each iteration of its progress-estimation loop.
* The SSE generator of the `/progress/<job_id>` route is modelled by
  `progressStream` / `streamLoop`, parameterised by the sequence of states of
  the observed job at each 500ms poll.
-/

namespace PodcastApp

/-- Job status values used by `src/app.py` (the `status` field of a job dict):
`pending`, `downloading`, `processing`, `transcribing`, `formatting`,
`completed`, `failed`. -/
inductive Status where
  | pending
  | downloading
  | processing
  | transcribing
  | formatting
  | completed
  | failed
deriving DecidableEq, Repr

/-- A terminal status is `completed` or `failed`. -/
def isTerminal : Status → Bool
  | Status.completed => true
  | Status.failed => true
  | _ => false

/-- Truncation toward zero, the behaviour of Python's `int()` on a float. -/
def pyInt (q : ℚ) : Int :=
  if 0 ≤ q then ⌊q⌋ else ⌈q⌉

/-- Python float floor division `a // b` (the mathematical floor of the
quotient, returned as a number). -/
def pyFloorDiv (a b : ℚ) : ℚ :=
  ((⌊a / b⌋ : ℤ) : ℚ)

/-- Python float modulo `a % b`, which satisfies `a % b = a - b * (a // b)`. -/
def pyMod (a b : ℚ) : ℚ :=
  a - b * pyFloorDiv a b

/-- Zero-padding to (at least) two characters, the behaviour of the Python
format specifier `{n:02d}`. -/
def padTwo (n : Int) : String :=
  let t := toString n
  if t.length < 2 then "0" ++ t else t

/-- Embedding of `format_timestamp` (src/app.py lines 135-143):
`hours = int(seconds // 3600)`, `minutes = int((seconds % 3600) // 60)`,
`secs = int(seconds % 60)`; renders `HH:MM:SS` when `hours > 0`, else
`MM:SS`. -/
def format_timestamp (seconds : ℚ) : String :=
  let hours : Int := pyInt (pyFloorDiv seconds 3600)
  let minutes : Int := pyInt (pyFloorDiv (pyMod seconds 3600) 60)
  let secs : Int := pyInt (pyMod seconds 60)
  if 0 < hours then
    padTwo hours ++ ":" ++ padTwo minutes ++ ":" ++ padTwo secs
  else
    padTwo minutes ++ ":" ++ padTwo secs

/-- The timestamp format as the specification words it (§4.4 step 4): hours =
floor(seconds/3600), minutes = floor((seconds mod 3600)/60), seconds =
floor(seconds mod 60), each zero-padded to two digits, hours field omitted when
hours is zero. Stated from the spec's words, to be compared with
`format_timestamp`. -/
def formatTimestampSpec (seconds : ℚ) : String :=
  let hours : Int := ⌊seconds / 3600⌋
  let minutes : Int := ⌊(seconds - 3600 * ((⌊seconds / 3600⌋ : ℤ) : ℚ)) / 60⌋
  let secs : Int := ⌊seconds - 60 * ((⌊seconds / 60⌋ : ℤ) : ℚ)⌋
  if hours = 0 then
    padTwo minutes ++ ":" ++ padTwo secs
  else
    padTwo hours ++ ":" ++ padTwo minutes ++ ":" ++ padTwo secs

/-- Embedding of the float expression `estimated_progress` computed by the
worker's estimation loop (src/app.py lines 231-235) with `estimated_total`
abstracted as a parameter: `30 + min(60, (elapsed / estimated_total) * 60)`
when `estimated_total > 0`, else `50`. -/
def estimated_progress (elapsed estimated_total : ℚ) : ℚ :=
  if 0 < estimated_total then 30 + min 60 (elapsed / estimated_total * 60)
  else 50

/-- The integer progress value the worker writes for one loop iteration,
`int(estimated_progress)`, as a function of `elapsed` and of the expected
total duration (src/app.py lines 231-239). -/
def estimate (elapsed expected : ℚ) : Int :=
  pyInt (estimated_progress elapsed expected)

/-- The progress value written for one loop iteration as a function of the
raw `audio_duration`: the worker first computes
`estimated_total = audio_duration * 1.2` (src/app.py line 229; the float
literal `1.2` is the exact rational 6/5 in this model). -/
def estimateUpdate (elapsed audio_duration : ℚ) : Int :=
  estimate elapsed (audio_duration * (6 / 5))

/-- The estimator as the specification words it (§4.2): output
`30 + min(60, (elapsed / expectedDuration) * 60)` truncated to an integer,
and the fixed midpoint 50 when `expectedDuration <= 0`. Stated from the
spec's words, to be compared with `estimate` / `estimateUpdate`. -/
def estimateSpec (elapsed expectedDuration : ℚ) : Int :=
  if expectedDuration ≤ 0 then 50
  else pyInt (30 + min 60 (elapsed / expectedDuration * 60))

/-- One formatted transcript segment as produced by `format_transcript`
(src/app.py lines 116-132). -/
structure Segment where
  timestamp : String
  start_seconds : ℚ
  text : String
deriving DecidableEq, Repr

/-- One raw segment of the Whisper transcription result: a start time and a
text. -/
structure RawSegment where
  start : ℚ
  text : String
deriving DecidableEq, Repr

/-- The structured result returned by `model.transcribe`: the full text and
the ordered raw segments. -/
structure WhisperResult where
  text : String
  segments : List RawSegment
deriving DecidableEq, Repr

/-- Embedding of `format_transcript` (src/app.py lines 116-132): for each raw
segment produce its formatted timestamp, its start time, and its stripped
text. -/
def format_transcript (result : WhisperResult) : List Segment :=
  result.segments.map fun s =>
    { timestamp := format_timestamp s.start
      start_seconds := s.start
      text := s.text.trim }

/-- The `result` dict stored on success (src/app.py lines 262-268):
`{'success': True, 'title': ..., 'transcript': segments, 'full_text': ...}`. -/
structure JobResult where
  success : Bool
  title : String
  transcript : List Segment
  full_text : String
deriving DecidableEq, Repr

/-- One job's mutable state, the value type of the `jobs` dict
(src/app.py lines 329-337). -/
structure JobState where
  status : Status
  progress : Int
  message : String
  result : Option JobResult
  error : Option String
  created_at : String
deriving DecidableEq, Repr

/-- The in-memory job store: the global `jobs` dict, as an association list
from job id to `JobState`. -/
abbrev Jobs := List (String × JobState)

/-- Dictionary lookup, `jobs[job_id]` guarded by `job_id in jobs`. -/
def lookupJob : Jobs → String → Option JobState
  | [], _ => none
  | (k, v) :: rest, i => if k = i then some v else lookupJob rest i

/-- Dictionary assignment `jobs[job_id] = state`: replaces the entry if the
key is present, appends it otherwise. -/
def dictSet : Jobs → String → JobState → Jobs
  | [], k, v => [(k, v)]
  | (k', v') :: rest, k, v =>
      if k' = k then (k, v) :: rest else (k', v') :: dictSet rest k v

/-- In-place mutation of the entry under a key, when present; the store is
unchanged when the key is absent. -/
def modifyJob : Jobs → String → (JobState → JobState) → Jobs
  | [], _, _ => []
  | (k', v) :: rest, k, f =>
      if k' = k then (k', f v) :: rest else (k', v) :: modifyJob rest k f

/-- Embedding of `update_job_progress` (src/app.py lines 151-158): under the
lock, if the id is present, overwrite the `progress`, `message` and `status`
fields; otherwise do nothing. -/
def update_job_progress (jobs : Jobs) (job_id : String) (progress : Int)
    (message : String) (status : Status) : Jobs :=
  modifyJob jobs job_id fun j =>
    { j with progress := progress, message := message, status := status }

/-- Embedding of the success write `jobs[job_id]['result'] = {...}` performed
under the lock (src/app.py lines 262-268). In the Python source a missing id
would raise `KeyError`; the worker only runs for ids the dispatcher has
created, and this model leaves the store unchanged on a missing id. -/
def set_job_result (jobs : Jobs) (job_id : String) (r : JobResult) : Jobs :=
  modifyJob jobs job_id fun j => { j with result := some r }

/-- Embedding of the failure write performed under the lock
(src/app.py lines 276-279): one critical section sets `status = 'failed'`,
`error = str(e)` and `message = 'Transcription failed: ' + str(e)`. -/
def set_job_failed (jobs : Jobs) (job_id : String) (e : String) : Jobs :=
  modifyJob jobs job_id fun j =>
    { j with status := Status.failed, error := some e,
             message := "Transcription failed: " ++ e }

/-- The initial job state written by the dispatcher (src/app.py
lines 329-337). -/
def initialJobState (created_at : String) : JobState :=
  { status := Status.pending
    progress := 0
    message := "Initializing..."
    result := none
    error := none
    created_at := created_at }

/-- Embedding of the job creation in the `/transcribe` route (src/app.py
lines 325-337): a plain dict assignment of the initial state under the
generated id; no check that the id is fresh. -/
def createJob (jobs : Jobs) (job_id : String) (created_at : String) : Jobs :=
  dictSet jobs job_id (initialJobState created_at)

/-- One atomic store operation performed by `transcribe_job_worker`: each
constructor corresponds to one `with jobs_lock:` critical section of the
Python worker. -/
inductive WorkerEvent where
  | update (progress : Int) (message : String) (status : Status)
  | setResult (r : JobResult)
  | setFailed (errMsg : String)
deriving DecidableEq, Repr

/-- Is an event the write of the `result` field (src/app.py lines 262-268)? -/
def isResultWrite : WorkerEvent → Bool
  | WorkerEvent.setResult _ => true
  | _ => false

/-- Is an event the write of the `error` field (src/app.py lines 276-279)? -/
def isErrorWrite : WorkerEvent → Bool
  | WorkerEvent.setFailed _ => true
  | _ => false

/-- The effect of one worker event on the observed job's state. `update`
overwrites `progress`, `message` and `status`; `setResult` only sets
`result`; `setFailed` sets `status`, `error` and `message` together. -/
def applyWorkerEventJS (j : JobState) : WorkerEvent → JobState
  | WorkerEvent.update p m s => { j with progress := p, message := m, status := s }
  | WorkerEvent.setResult r => { j with result := some r }
  | WorkerEvent.setFailed e =>
      { j with status := Status.failed, error := some e,
               message := "Transcription failed: " ++ e }

/-- The effect of one worker event on the whole store, through the store
operations of src/app.py. -/
def applyWorkerEvent (job_id : String) (jobs : Jobs) : WorkerEvent → Jobs
  | WorkerEvent.update p m s => update_job_progress jobs job_id p m s
  | WorkerEvent.setResult r => set_job_result jobs job_id r
  | WorkerEvent.setFailed e => set_job_failed jobs job_id e

/-- The success result dict built at src/app.py lines 263-268. -/
def mkResult (title : String) (w : WhisperResult) : JobResult :=
  { success := true, title := title, transcript := format_transcript w,
    full_text := w.text }

/-- The progress updates written by the worker's estimation loop
(src/app.py lines 227-244), one per iteration, at the given elapsed times. -/
def loopUpdates (elapsedList : List ℚ) (audio_duration : ℚ) : List WorkerEvent :=
  elapsedList.map fun e =>
    WorkerEvent.update (estimateUpdate e audio_duration)
      ("Transcribing audio... (" ++ toString (pyInt e) ++ "s elapsed)")
      Status.transcribing

/-- The five fixed progress updates the worker performs before the estimation
loop (src/app.py lines 167-203). -/
def preEvents : List WorkerEvent :=
  [WorkerEvent.update 0 "Starting download..." Status.downloading,
   WorkerEvent.update 5 "Downloading audio..." Status.downloading,
   WorkerEvent.update 20 "Audio downloaded successfully" Status.downloading,
   WorkerEvent.update 25 "Preparing audio for transcription..." Status.processing,
   WorkerEvent.update 30 "Starting transcription..." Status.transcribing]

/-- The store operations the worker performs after the estimation loop on the
success path (src/app.py lines 255-270): two formatting updates, the result
write, and the completed update. -/
def postEvents (title : String) (w : WhisperResult) : List WorkerEvent :=
  [WorkerEvent.update 90 "Formatting transcript..." Status.formatting,
   WorkerEvent.update 95 "Finalizing..." Status.formatting,
   WorkerEvent.setResult (mkResult title w),
   WorkerEvent.update 100 "Transcription complete!" Status.completed]

/-- The outcome of the worker's fallible collaborator calls: success (with the
downloaded title and the transcription result), a download failure
(src/app.py line 188), a missing downloaded file (src/app.py line 297), or a
transcription failure (src/app.py lines 249-250). -/
inductive WorkerOutcome where
  | success (title : String) (w : WhisperResult)
  | downloadError (msg : String)
  | fileNotFound
  | transcribeError (msg : String)
deriving DecidableEq, Repr

/-- The full sequence of atomic store operations performed by one run of
`transcribe_job_worker` (src/app.py lines 161-288), given the outcome of its
collaborator calls, the elapsed times its estimation loop observes, and the
audio duration reported by the downloader. On a failure the worker performs
the single failure write and stops; the cleanup code touches only the
filesystem, not the store. -/
def workerTrace (o : WorkerOutcome) (elapsedList : List ℚ)
    (audio_duration : ℚ) : List WorkerEvent :=
  match o with
  | WorkerOutcome.success title w =>
      preEvents ++ loopUpdates elapsedList audio_duration ++ postEvents title w
  | WorkerOutcome.downloadError msg =>
      [WorkerEvent.update 0 "Starting download..." Status.downloading,
       WorkerEvent.update 5 "Downloading audio..." Status.downloading,
       WorkerEvent.setFailed msg]
  | WorkerOutcome.fileNotFound =>
      [WorkerEvent.update 0 "Starting download..." Status.downloading,
       WorkerEvent.update 5 "Downloading audio..." Status.downloading,
       WorkerEvent.update 20 "Audio downloaded successfully" Status.downloading,
       WorkerEvent.setFailed "Downloaded audio file not found"]
  | WorkerOutcome.transcribeError msg =>
      preEvents ++ loopUpdates elapsedList audio_duration ++
        [WorkerEvent.setFailed msg]

/-- The sequence of states of one job over a worker run: the initial state
written by the dispatcher followed by the state after each worker event. -/
def workerStates (created_at : String) (trace : List WorkerEvent) : List JobState :=
  List.scanl applyWorkerEventJS (initialJobState created_at) trace

/-- An event of the SSE stream produced by the `/progress/<job_id>` route:
a `{progress, message, status}` snapshot, a final event for a completed or
failed job, or the single "not found" event. -/
inductive StreamEvent where
  | snapshot (progress : Int) (message : String) (status : Status)
  | finalCompleted (result : Option JobResult)
  | finalFailed (error : Option String)
  | notFound
deriving DecidableEq, Repr

/-- The final event emitted when a terminal status is observed
(src/app.py lines 396-411). -/
def finalEvent (j : JobState) : StreamEvent :=
  if j.status = Status.completed then StreamEvent.finalCompleted j.result
  else StreamEvent.finalFailed j.error

/-- Embedding of the polling loop of the SSE generator (src/app.py
lines 367-413), driven by the sequence of states the generator reads from the
store at each poll (`none` when the id has disappeared). A snapshot is
emitted only when `progress` or `status` differs from the previously emitted
pair (`last_progress`, `last_status`); on a terminal status the final event
is emitted and the loop stops. -/
def streamLoop : List (Option JobState) → Int → Option Status → List StreamEvent
  | [], _, _ => []
  | none :: _, _, _ => []
  | some j :: rest, lastProgress, lastStatus =>
      if j.progress ≠ lastProgress ∨ some j.status ≠ lastStatus then
        StreamEvent.snapshot j.progress j.message j.status ::
          (if isTerminal j.status = true then [finalEvent j]
           else streamLoop rest j.progress (some j.status))
      else
        if isTerminal j.status = true then [finalEvent j]
        else streamLoop rest lastProgress lastStatus

/-- Embedding of the `/progress/<job_id>` generator (src/app.py
lines 361-413): if the id is absent at stream start, the single "not found"
event; otherwise the polling loop started with `last_progress = -1`,
`last_status = None`. -/
def progressStream (jobs0 : Jobs) (job_id : String)
    (obs : List (Option JobState)) : List StreamEvent :=
  if lookupJob jobs0 job_id = none then [StreamEvent.notFound]
  else streamLoop obs (-1) none

/-- The job state right after the fixed pre-loop updates: progress 30,
status `transcribing`. -/
def transcribingState (c : String) : JobState :=
  { status := Status.transcribing, progress := 30,
    message := "Starting transcription...", result := none, error := none,
    created_at := c }

/-- The relation between two consecutive job states of a worker run: progress
does not decrease, and a state that has a successor is not terminal. -/
def progStep (a b : JobState) : Prop :=
  a.progress ≤ b.progress ∧ isTerminal a.status = false

/-- The state after one estimation-loop update. -/
def loopState (j0 : JobState) (e d : ℚ) : JobState :=
  applyWorkerEventJS j0
    (WorkerEvent.update (estimateUpdate e d)
      ("Transcribing audio... (" ++ toString (pyInt e) ++ "s elapsed)")
      Status.transcribing)

/-- The facts about `result`, `error` and terminal statuses that hold in
every state of a worker run. -/
def TermOK (j : JobState) : Prop :=
  (j.status = Status.completed →
    j.result.isSome = true ∧ j.error = none ∧ j.progress = 100) ∧
  (j.status = Status.failed → j.error.isSome = true ∧ j.result = none) ∧
  (isTerminal j.status = false → j.error = none) ∧
  (j.result.isSome = true →
    j.status = Status.formatting ∨ j.status = Status.completed)

/-- The C1 property of one worker run: every reachable job state keeps
`progress` within [0, 100]; across consecutive states `progress` never
decreases and only the last state may be terminal; the final state is
terminal, carries `progress = 100` when `completed`, and keeps the last
pre-failure `progress` when `failed`; and the run of the real store
operations projects onto exactly this sequence of job states. -/
def ProgressSpec (o : WorkerOutcome) (el : List ℚ) (d : ℚ) (c : String) : Prop :=
  (∀ j ∈ workerStates c (workerTrace o el d), 0 ≤ j.progress ∧ j.progress ≤ 100) ∧
  (workerStates c (workerTrace o el d)).Chain' progStep ∧
  isTerminal (List.foldl applyWorkerEventJS (initialJobState c)
      (workerTrace o el d)).status = true ∧
  ((List.foldl applyWorkerEventJS (initialJobState c)
      (workerTrace o el d)).status = Status.completed →
    (List.foldl applyWorkerEventJS (initialJobState c)
      (workerTrace o el d)).progress = 100) ∧
  ((List.foldl applyWorkerEventJS (initialJobState c)
      (workerTrace o el d)).status = Status.failed →
    (List.foldl applyWorkerEventJS (initialJobState c)
      (workerTrace o el d)).progress =
    (List.foldl applyWorkerEventJS (initialJobState c)
      (workerTrace o el d).dropLast).progress) ∧
  ∀ k : String,
    (List.scanl (applyWorkerEvent k) (dictSet [] k (initialJobState c))
        (workerTrace o el d)).map (fun x => lookupJob x k) =
      (workerStates c (workerTrace o el d)).map some

/-- The C2 property of one worker run (as amended): once a state is terminal,
exactly one of `result`/`error` is non-empty, tied to the terminal status;
each of the two fields is written by at most one event of the run; `error`
appears only at the failed transition itself; `result` is only ever set in a
state whose status is `formatting` or `completed`. -/
def TerminalSpec (o : WorkerOutcome) (el : List ℚ) (d : ℚ) (c : String) : Prop :=
  (∀ j ∈ workerStates c (workerTrace o el d), isTerminal j.status = true →
    (j.status = Status.completed ∧ j.result.isSome = true ∧ j.error = none) ∨
    (j.status = Status.failed ∧ j.error.isSome = true ∧ j.result = none)) ∧
  (workerTrace o el d).countP isResultWrite ≤ 1 ∧
  (workerTrace o el d).countP isErrorWrite ≤ 1 ∧
  (∀ j ∈ workerStates c (workerTrace o el d),
    isTerminal j.status = false → j.error = none) ∧
  ∀ j ∈ workerStates c (workerTrace o el d), j.result.isSome = true →
    j.status = Status.formatting ∨ j.status = Status.completed

/-! ### Generic lemmas about `scanl` runs -/

theorem scanl_head {α β : Type} (f : α → β → α) (b : α) (l : List β) :
    (List.scanl f b l).head? = some b := by
  cases l <;> simp [List.scanl_nil, List.scanl_cons]

theorem scanl_ne_nil {α β : Type} (f : α → β → α) (b : α) (l : List β) :
    List.scanl f b l ≠ [] := by
  cases l <;> simp [List.scanl_nil, List.scanl_cons]

theorem scanl_getLast {α β : Type} (f : α → β → α) :
    ∀ (l : List β) (b : α), (List.scanl f b l).getLast? = some (List.foldl f b l)
  | [], b => by simp [List.scanl_nil]
  | a :: l, b => by
      rw [List.scanl_cons, List.foldl_cons,
        List.getLast?_append_of_ne_nil _ (scanl_ne_nil f (f b a) l)]
      exact scanl_getLast f l (f b a)

theorem chain_scanl_append {α β : Type} (R : α → α → Prop) (f : α → β → α) :
    ∀ (l₁ l₂ : List β) (b : α),
      (List.scanl f b l₁).Chain' R →
      (List.scanl f (List.foldl f b l₁) l₂).Chain' R →
      (List.scanl f b (l₁ ++ l₂)).Chain' R
  | [], l₂, b, _, h₂ => by simpa using h₂
  | a :: l₁, l₂, b, h₁, h₂ => by
      rw [List.cons_append, List.scanl_cons, List.singleton_append]
      rw [List.scanl_cons, List.singleton_append] at h₁
      rw [List.chain'_cons'] at h₁ ⊢
      refine ⟨fun y hy => ?_, ?_⟩
      · rw [scanl_head] at hy
        obtain rfl : f b a = y := by simpa using hy
        exact h₁.1 (f b a) (by rw [scanl_head]; rfl)
      · exact chain_scanl_append R f l₁ l₂ (f b a) h₁.2
          (by rwa [List.foldl_cons] at h₂)

theorem mem_scanl_append {α β : Type} (f : α → β → α) :
    ∀ (l₁ l₂ : List β) (b : α) (x : α),
      x ∈ List.scanl f b (l₁ ++ l₂) →
      x ∈ List.scanl f b l₁ ∨ x ∈ List.scanl f (List.foldl f b l₁) l₂
  | [], l₂, b, x, h => Or.inr (by simpa using h)
  | a :: l₁, l₂, b, x, h => by
      rw [List.cons_append, List.scanl_cons, List.singleton_append,
        List.mem_cons] at h
      rcases h with rfl | h
      · exact Or.inl (by rw [List.scanl_cons, List.singleton_append]; exact List.mem_cons_self _ _)
      · rcases mem_scanl_append f l₁ l₂ (f b a) x h with h' | h'
        · refine Or.inl ?_
          rw [List.scanl_cons, List.singleton_append]
          exact List.mem_cons_of_mem _ h'
        · exact Or.inr (by rwa [List.foldl_cons])

theorem getLast_mem {α : Type} : ∀ (l : List α) (a : α), l.getLast? = some a → a ∈ l
  | [], _, h => by simp at h
  | [x], a, h => by
      have hx : x = a := by simpa using h
      subst hx
      exact List.mem_singleton_self x
  | x :: y :: l, a, h => by
      rw [List.getLast?_cons_cons] at h
      exact List.mem_cons_of_mem x (getLast_mem (y :: l) a h)

/-! ### Lemmas about the store operations -/

theorem lookupJob_modifyJob_self :
    ∀ (jobs : Jobs) (k : String) (f : JobState → JobState),
      lookupJob (modifyJob jobs k f) k = (lookupJob jobs k).map f
  | [], _, _ => rfl
  | (k', v) :: rest, k, f => by
      by_cases h : k' = k
      · simp [modifyJob, lookupJob, h]
      · simp [modifyJob, lookupJob, h, lookupJob_modifyJob_self rest k f]

theorem modifyJob_of_lookup_none :
    ∀ (jobs : Jobs) (k : String) (f : JobState → JobState),
      lookupJob jobs k = none → modifyJob jobs k f = jobs
  | [], _, _, _ => rfl
  | (k', v) :: rest, k, f, h => by
      by_cases hk : k' = k
      · simp [lookupJob, hk] at h
      · have h' : lookupJob rest k = none := by simpa [lookupJob, hk] using h
        simp [modifyJob, hk, modifyJob_of_lookup_none rest k f h']

theorem lookupJob_dictSet_self :
    ∀ (jobs : Jobs) (k : String) (v : JobState),
      lookupJob (dictSet jobs k v) k = some v
  | [], k, v => by simp [dictSet, lookupJob]
  | (k', v') :: rest, k, v => by
      by_cases h : k' = k
      · simp [dictSet, lookupJob, h]
      · simp [dictSet, lookupJob, h, lookupJob_dictSet_self rest k v]

theorem lookupJob_dictSet_ne :
    ∀ (jobs : Jobs) (k i : String) (v : JobState), k ≠ i →
      lookupJob (dictSet jobs k v) i = lookupJob jobs i
  | [], k, i, v, h => by simp [dictSet, lookupJob, h]
  | (k', v') :: rest, k, i, v, h => by
      by_cases h' : k' = k
      · subst h'
        simp [dictSet, lookupJob, h]
      · simp [dictSet, lookupJob, h', lookupJob_dictSet_ne rest k i v h]

theorem lookupJob_applyWorkerEvent (k : String) (jobs : Jobs) (e : WorkerEvent) :
    lookupJob (applyWorkerEvent k jobs e) k =
      (lookupJob jobs k).map (fun j => applyWorkerEventJS j e) := by
  cases e <;>
    simp [applyWorkerEvent, update_job_progress, set_job_result, set_job_failed,
      lookupJob_modifyJob_self, applyWorkerEventJS]

/-! ### Lemmas about `pyInt` and the progress estimator -/

theorem pyInt_of_nonneg {q : ℚ} (h : 0 ≤ q) : pyInt q = ⌊q⌋ := if_pos h

theorem le_pyInt {n : ℤ} {q : ℚ} (h0 : 0 ≤ q) (h : (n : ℚ) ≤ q) : n ≤ pyInt q := by
  rw [pyInt_of_nonneg h0]
  exact Int.le_floor.mpr h

theorem pyInt_le {n : ℤ} {q : ℚ} (h0 : 0 ≤ q) (h : q ≤ (n : ℚ)) : pyInt q ≤ n := by
  rw [pyInt_of_nonneg h0]
  calc ⌊q⌋ ≤ ⌊(n : ℚ)⌋ := Int.floor_le_floor h
    _ = n := Int.floor_intCast n

theorem pyInt_mono {a b : ℚ} (h0 : 0 ≤ a) (h : a ≤ b) : pyInt a ≤ pyInt b := by
  rw [pyInt_of_nonneg h0, pyInt_of_nonneg (h0.trans h)]
  exact Int.floor_le_floor h

theorem estimated_progress_bounds (e et : ℚ) (he : 0 ≤ e) :
    30 ≤ estimated_progress e et ∧ estimated_progress e et ≤ 90 := by
  unfold estimated_progress
  split
  · rename_i het
    have hx : 0 ≤ e / et * 60 :=
      mul_nonneg (div_nonneg he het.le) (by norm_num)
    have h1 : 0 ≤ min (60 : ℚ) (e / et * 60) := le_min (by norm_num) hx
    have h2 : min (60 : ℚ) (e / et * 60) ≤ 60 := min_le_left _ _
    constructor <;> linarith
  · norm_num

theorem estimate_bounds (e et : ℚ) (he : 0 ≤ e) :
    30 ≤ estimate e et ∧ estimate e et ≤ 90 := by
  obtain ⟨h1, h2⟩ := estimated_progress_bounds e et he
  have h0 : 0 ≤ estimated_progress e et := by linarith
  constructor
  · exact le_pyInt h0 (by exact_mod_cast h1)
  · exact pyInt_le h0 (by exact_mod_cast h2)

theorem estimate_mono (e1 e2 et : ℚ) (h0 : 0 ≤ e1) (h : e1 ≤ e2) :
    estimate e1 et ≤ estimate e2 et := by
  unfold estimate estimated_progress
  split
  · rename_i het
    have hq : e1 / et * 60 ≤ e2 / et * 60 := by gcongr
    have hx : 0 ≤ e1 / et * 60 :=
      mul_nonneg (div_nonneg h0 het.le) (by norm_num)
    have h1 : 0 ≤ min (60 : ℚ) (e1 / et * 60) := le_min (by norm_num) hx
    exact pyInt_mono (by linarith) (by have := min_le_min (le_refl (60 : ℚ)) hq; linarith)
  · exact le_refl _

theorem estimateUpdate_bounds (e d : ℚ) (he : 0 ≤ e) :
    30 ≤ estimateUpdate e d ∧ estimateUpdate e d ≤ 90 :=
  estimate_bounds e (d * (6 / 5)) he

theorem estimateUpdate_mono (e1 e2 d : ℚ) (h0 : 0 ≤ e1) (h : e1 ≤ e2) :
    estimateUpdate e1 d ≤ estimateUpdate e2 d :=
  estimate_mono e1 e2 (d * (6 / 5)) h0 h

/-! ### The worker run: per-state analysis -/

theorem loopUpdates_nil (d : ℚ) : loopUpdates [] d = [] := rfl

theorem loopUpdates_cons (e : ℚ) (el : List ℚ) (d : ℚ) :
    loopUpdates (e :: el) d =
      WorkerEvent.update (estimateUpdate e d)
          ("Transcribing audio... (" ++ toString (pyInt e) ++ "s elapsed)")
          Status.transcribing :: loopUpdates el d := rfl

theorem loop_basic (d : ℚ) :
    ∀ (el : List ℚ) (j0 : JobState), j0.status = Status.transcribing →
      ∀ j ∈ List.scanl applyWorkerEventJS j0 (loopUpdates el d),
        j.status = Status.transcribing ∧ j.result = j0.result ∧ j.error = j0.error
  | [], j0, hst, j, hj => by
      simp only [loopUpdates_nil, List.scanl_nil, List.mem_singleton] at hj
      subst hj
      exact ⟨hst, rfl, rfl⟩
  | e :: el, j0, hst, j, hj => by
      rw [loopUpdates_cons, List.scanl_cons, List.singleton_append] at hj
      rcases List.mem_cons.mp hj with rfl | hj
      · exact ⟨hst, rfl, rfl⟩
      · have := loop_basic d el (loopState j0 e d) rfl j hj
        simpa [loopState, applyWorkerEventJS] using this

theorem loop_spec (d : ℚ) :
    ∀ (el : List ℚ) (j0 : JobState),
      (∀ e ∈ el, (0 : ℚ) ≤ e) → el.Chain' (· ≤ ·) →
      j0.status = Status.transcribing → 0 ≤ j0.progress → j0.progress ≤ 90 →
      (∀ e, el.head? = some e → j0.progress ≤ estimateUpdate e d) →
      (List.scanl applyWorkerEventJS j0 (loopUpdates el d)).Chain' progStep ∧
      ∀ j ∈ List.scanl applyWorkerEventJS j0 (loopUpdates el d),
        0 ≤ j.progress ∧ j.progress ≤ 90
  | [], j0, _, _, _, h0, h90, _ => by
      refine ⟨by simp [loopUpdates, List.scanl_nil], ?_⟩
      intro j hj
      simp only [loopUpdates, List.map_nil, List.scanl_nil, List.mem_singleton] at hj
      subst hj
      exact ⟨h0, h90⟩
  | e :: el, j0, hel, hch, hst, h0, h90, hhead => by
      have he : (0 : ℚ) ≤ e := hel e (List.mem_cons_self _ _)
      obtain ⟨hb30, hb90⟩ := estimateUpdate_bounds e d he
      have hstep : j0.progress ≤ estimateUpdate e d := hhead e rfl
      have IH := loop_spec d el (loopState j0 e d)
        (fun x hx => hel x (List.mem_cons_of_mem _ hx)) hch.tail rfl
        (by simpa [loopState, applyWorkerEventJS] using le_trans (by norm_num) hb30)
        (by simpa [loopState, applyWorkerEventJS] using hb90)
        (fun e' he' => by
          have hee : e ≤ e' := (List.chain'_cons'.mp hch).1 e' (by rw [he']; rfl)
          simpa [loopState, applyWorkerEventJS] using estimateUpdate_mono e e' d he hee)
      constructor
      · rw [loopUpdates_cons, List.scanl_cons, List.singleton_append, List.chain'_cons']
        refine ⟨fun y hy => ?_, IH.1⟩
        rw [scanl_head] at hy
        obtain rfl : loopState j0 e d = y := by simpa using hy
        refine ⟨?_, by rw [hst]; rfl⟩
        simpa [loopState, applyWorkerEventJS] using hstep
      · intro j hj
        rw [loopUpdates_cons, List.scanl_cons, List.singleton_append] at hj
        rcases List.mem_cons.mp hj with rfl | hj
        · exact ⟨h0, h90⟩
        · exact IH.2 j hj

theorem scanl_preEvents (c : String) :
    List.scanl applyWorkerEventJS (initialJobState c) preEvents =
      [initialJobState c,
       { status := Status.downloading, progress := 0,
         message := "Starting download...", result := none, error := none,
         created_at := c },
       { status := Status.downloading, progress := 5,
         message := "Downloading audio...", result := none, error := none,
         created_at := c },
       { status := Status.downloading, progress := 20,
         message := "Audio downloaded successfully", result := none, error := none,
         created_at := c },
       { status := Status.processing, progress := 25,
         message := "Preparing audio for transcription...", result := none,
         error := none, created_at := c },
       transcribingState c] := rfl

theorem foldl_preEvents (c : String) :
    List.foldl applyWorkerEventJS (initialJobState c) preEvents =
      transcribingState c := rfl

theorem chain_pre (c : String) :
    (List.scanl applyWorkerEventJS (initialJobState c) preEvents).Chain' progStep := by
  rw [scanl_preEvents]
  norm_num [List.chain'_cons, List.chain'_singleton, progStep, isTerminal,
    initialJobState, transcribingState]

theorem mem_pre (c : String) :
    ∀ j ∈ List.scanl applyWorkerEventJS (initialJobState c) preEvents,
      0 ≤ j.progress ∧ j.progress ≤ 100 ∧ isTerminal j.status = false ∧
      j.result = none ∧ j.error = none := by
  intro j hj
  rw [scanl_preEvents] at hj
  simp only [List.mem_cons, List.not_mem_nil, or_false] at hj
  rcases hj with rfl | rfl | rfl | rfl | rfl | rfl <;>
    simp [initialJobState, transcribingState, isTerminal]

theorem scanl_postEvents (t : String) (w : WhisperResult) (jl : JobState) :
    List.scanl applyWorkerEventJS jl (postEvents t w) =
      [jl,
       { status := Status.formatting, progress := 90,
         message := "Formatting transcript...", result := jl.result,
         error := jl.error, created_at := jl.created_at },
       { status := Status.formatting, progress := 95,
         message := "Finalizing...", result := jl.result,
         error := jl.error, created_at := jl.created_at },
       { status := Status.formatting, progress := 95,
         message := "Finalizing...", result := some (mkResult t w),
         error := jl.error, created_at := jl.created_at },
       { status := Status.completed, progress := 100,
         message := "Transcription complete!", result := some (mkResult t w),
         error := jl.error, created_at := jl.created_at }] := rfl

theorem foldl_postEvents (t : String) (w : WhisperResult) (jl : JobState) :
    List.foldl applyWorkerEventJS jl (postEvents t w) =
      { status := Status.completed, progress := 100,
        message := "Transcription complete!", result := some (mkResult t w),
        error := jl.error, created_at := jl.created_at } := rfl

theorem chain_post (t : String) (w : WhisperResult) (jl : JobState)
    (h90 : jl.progress ≤ 90) (hterm : isTerminal jl.status = false) :
    (List.scanl applyWorkerEventJS jl (postEvents t w)).Chain' progStep := by
  rw [scanl_postEvents]
  norm_num [List.chain'_cons, List.chain'_singleton, progStep, isTerminal]
  exact ⟨h90, hterm⟩

theorem mem_post (t : String) (w : WhisperResult) (jl : JobState)
    (h0 : 0 ≤ jl.progress) (h90 : jl.progress ≤ 90) :
    ∀ j ∈ List.scanl applyWorkerEventJS jl (postEvents t w),
      0 ≤ j.progress ∧ j.progress ≤ 100 := by
  intro j hj
  rw [scanl_postEvents] at hj
  simp only [List.mem_cons, List.not_mem_nil, or_false] at hj
  rcases hj with rfl | rfl | rfl | rfl | rfl <;> norm_num
  exact ⟨h0, by linarith⟩

theorem termOK_of_clean (j : JobState) (hres : j.result = none)
    (herr : j.error = none) (hterm : isTerminal j.status = false) : TermOK j := by
  refine ⟨?_, ?_, fun _ => herr, ?_⟩
  · intro hc
    rw [hc] at hterm
    simp [isTerminal] at hterm
  · intro hc
    rw [hc] at hterm
    simp [isTerminal] at hterm
  · intro hr
    rw [hres] at hr
    simp at hr

theorem mem_post_termOK (t : String) (w : WhisperResult) (jl : JobState)
    (hres : jl.result = none) (herr : jl.error = none)
    (hterm : isTerminal jl.status = false) :
    ∀ j ∈ List.scanl applyWorkerEventJS jl (postEvents t w), TermOK j := by
  intro j hj
  rw [scanl_postEvents] at hj
  simp only [List.mem_cons, List.not_mem_nil, or_false] at hj
  rcases hj with rfl | rfl | rfl | rfl | rfl
  · exact termOK_of_clean _ hres herr hterm
  · exact termOK_of_clean _ (by simp [hres]) (by simp [herr]) (by simp [isTerminal])
  · exact termOK_of_clean _ (by simp [hres]) (by simp [herr]) (by simp [isTerminal])
  · refine ⟨by simp, by simp, fun _ => by simp [herr], fun _ => Or.inl rfl⟩
  · refine ⟨fun _ => ⟨by simp, by simp [herr], rfl⟩, by simp, ?_, fun _ => Or.inr rfl⟩
    intro h
    simp [isTerminal] at h

/-- The state written by the failure handler from a pre-failure state. -/
theorem setFailed_termOK (jp : JobState) (msg : String) (hres : jp.result = none) :
    TermOK (applyWorkerEventJS jp (WorkerEvent.setFailed msg)) := by
  refine ⟨by simp [applyWorkerEventJS], fun _ => ?_, ?_, ?_⟩
  · exact ⟨by simp [applyWorkerEventJS], by simp [applyWorkerEventJS, hres]⟩
  · intro h
    simp [applyWorkerEventJS, isTerminal] at h
  · intro h
    simp [applyWorkerEventJS, hres] at h

theorem loop_from_transcribing (el : List ℚ) (d : ℚ) (c : String) :
    ∀ j ∈ List.scanl applyWorkerEventJS (transcribingState c) (loopUpdates el d),
      j.status = Status.transcribing ∧ j.result = none ∧ j.error = none := by
  intro j hj
  have := loop_basic d el (transcribingState c) rfl j hj
  simpa [transcribingState] using this

/-- The facts about the last state of the estimation loop started from the
post-download state: non-terminal, clean, progress within the loop's range. -/
theorem loopLast_facts (el : List ℚ) (d : ℚ) (c : String)
    (hel : ∀ e ∈ el, (0 : ℚ) ≤ e) (hch : el.Chain' (· ≤ ·)) :
    (List.foldl applyWorkerEventJS (transcribingState c) (loopUpdates el d)).status =
        Status.transcribing ∧
    0 ≤ (List.foldl applyWorkerEventJS (transcribingState c) (loopUpdates el d)).progress ∧
    (List.foldl applyWorkerEventJS (transcribingState c) (loopUpdates el d)).progress ≤ 90 := by
  have hmem := getLast_mem _ _ (scanl_getLast applyWorkerEventJS (loopUpdates el d)
    (transcribingState c))
  have h1 := loop_from_transcribing el d c _ hmem
  have h2 := (loop_spec d el (transcribingState c) hel hch rfl
    (by norm_num [transcribingState]) (by norm_num [transcribingState])
    (fun e he => by
      have hee : e ∈ el := List.mem_of_mem_head? (Option.mem_def.mpr he)
      have := (estimateUpdate_bounds e d (hel e hee)).1
      simpa [transcribingState] using this)).2 _ hmem
  exact ⟨h1.1, h2.1, h2.2⟩

theorem loop_chain_from_transcribing (el : List ℚ) (d : ℚ) (c : String)
    (hel : ∀ e ∈ el, (0 : ℚ) ≤ e) (hch : el.Chain' (· ≤ ·)) :
    (List.scanl applyWorkerEventJS (transcribingState c) (loopUpdates el d)).Chain'
      progStep ∧
    ∀ j ∈ List.scanl applyWorkerEventJS (transcribingState c) (loopUpdates el d),
      0 ≤ j.progress ∧ j.progress ≤ 90 :=
  loop_spec d el (transcribingState c) hel hch rfl
    (by norm_num [transcribingState]) (by norm_num [transcribingState])
    (fun e he => by
      have hee : e ∈ el := List.mem_of_mem_head? (Option.mem_def.mpr he)
      have := (estimateUpdate_bounds e d (hel e hee)).1
      simpa [transcribingState] using this)

theorem workerStates_downloadError (msg : String) (el : List ℚ) (d : ℚ) (c : String) :
    workerStates c (workerTrace (WorkerOutcome.downloadError msg) el d) =
      [initialJobState c,
       { status := Status.downloading, progress := 0,
         message := "Starting download...", result := none, error := none,
         created_at := c },
       { status := Status.downloading, progress := 5,
         message := "Downloading audio...", result := none, error := none,
         created_at := c },
       { status := Status.failed, progress := 5,
         message := "Transcription failed: " ++ msg, result := none,
         error := some msg, created_at := c }] := rfl

theorem workerStates_fileNotFound (el : List ℚ) (d : ℚ) (c : String) :
    workerStates c (workerTrace WorkerOutcome.fileNotFound el d) =
      [initialJobState c,
       { status := Status.downloading, progress := 0,
         message := "Starting download...", result := none, error := none,
         created_at := c },
       { status := Status.downloading, progress := 5,
         message := "Downloading audio...", result := none, error := none,
         created_at := c },
       { status := Status.downloading, progress := 20,
         message := "Audio downloaded successfully", result := none, error := none,
         created_at := c },
       { status := Status.failed, progress := 20,
         message := "Transcription failed: Downloaded audio file not found",
         result := none, error := some "Downloaded audio file not found",
         created_at := c }] := rfl

theorem worker_termOK (o : WorkerOutcome) (el : List ℚ) (d : ℚ) (c : String) :
    ∀ j ∈ workerStates c (workerTrace o el d), TermOK j := by
  cases o with
  | success t w =>
      intro j hj
      rw [workerStates, workerTrace] at hj
      rcases mem_scanl_append _ _ _ _ _ hj with h | h
      · rcases mem_scanl_append _ _ _ _ _ h with h' | h'
        · obtain ⟨_, _, hterm, hres, herr⟩ := mem_pre c j h'
          exact termOK_of_clean j hres herr hterm
        · rw [foldl_preEvents] at h'
          obtain ⟨hst, hres, herr⟩ := loop_from_transcribing el d c j h'
          exact termOK_of_clean j hres herr (by rw [hst]; rfl)
      · rw [List.foldl_append, foldl_preEvents] at h
        have hjl := loop_from_transcribing el d c _
          (getLast_mem _ _ (scanl_getLast applyWorkerEventJS (loopUpdates el d)
            (transcribingState c)))
        exact mem_post_termOK t w _ hjl.2.1 hjl.2.2 (by rw [hjl.1]; rfl) j h
  | downloadError msg =>
      intro j hj
      rw [workerStates_downloadError] at hj
      simp only [List.mem_cons, List.not_mem_nil, or_false] at hj
      rcases hj with rfl | rfl | rfl | rfl
      · exact termOK_of_clean _ rfl rfl rfl
      · exact termOK_of_clean _ rfl rfl rfl
      · exact termOK_of_clean _ rfl rfl rfl
      · exact ⟨fun h => Status.noConfusion h, fun _ => ⟨rfl, rfl⟩,
          fun h => Bool.noConfusion h, fun h => Bool.noConfusion h⟩
  | fileNotFound =>
      intro j hj
      rw [workerStates_fileNotFound] at hj
      simp only [List.mem_cons, List.not_mem_nil, or_false] at hj
      rcases hj with rfl | rfl | rfl | rfl | rfl
      · exact termOK_of_clean _ rfl rfl rfl
      · exact termOK_of_clean _ rfl rfl rfl
      · exact termOK_of_clean _ rfl rfl rfl
      · exact termOK_of_clean _ rfl rfl rfl
      · exact ⟨fun h => Status.noConfusion h, fun _ => ⟨rfl, rfl⟩,
          fun h => Bool.noConfusion h, fun h => Bool.noConfusion h⟩
  | transcribeError msg =>
      intro j hj
      rw [workerStates, workerTrace] at hj
      rcases mem_scanl_append _ _ _ _ _ hj with h | h
      · rcases mem_scanl_append _ _ _ _ _ h with h' | h'
        · obtain ⟨_, _, hterm, hres, herr⟩ := mem_pre c j h'
          exact termOK_of_clean j hres herr hterm
        · rw [foldl_preEvents] at h'
          obtain ⟨hst, hres, herr⟩ := loop_from_transcribing el d c j h'
          exact termOK_of_clean j hres herr (by rw [hst]; rfl)
      · rw [List.foldl_append, foldl_preEvents] at h
        have hjl := loop_from_transcribing el d c _
          (getLast_mem _ _ (scanl_getLast applyWorkerEventJS (loopUpdates el d)
            (transcribingState c)))
        rw [List.scanl_cons, List.scanl_nil, List.singleton_append] at h
        rcases List.mem_cons.mp h with rfl | h''
        · exact termOK_of_clean _ hjl.2.1 hjl.2.2 (by rw [hjl.1]; rfl)
        · obtain rfl := by simpa using h''
          exact setFailed_termOK _ msg hjl.2.1

theorem worker_chain_bounds (o : WorkerOutcome) (el : List ℚ) (d : ℚ) (c : String)
    (hel : ∀ e ∈ el, (0 : ℚ) ≤ e) (hch : el.Chain' (· ≤ ·)) :
    (workerStates c (workerTrace o el d)).Chain' progStep ∧
    ∀ j ∈ workerStates c (workerTrace o el d), 0 ≤ j.progress ∧ j.progress ≤ 100 := by
  cases o with
  | success t w =>
      have hjl := loopLast_facts el d c hel hch
      have hloop := loop_chain_from_transcribing el d c hel hch
      constructor
      · rw [workerStates, workerTrace]
        refine chain_scanl_append progStep _ _ _ _ ?_ ?_
        · refine chain_scanl_append progStep _ preEvents _ _ (chain_pre c) ?_
          rw [foldl_preEvents]
          exact hloop.1
        · rw [List.foldl_append, foldl_preEvents]
          exact chain_post t w _ hjl.2.2 (by rw [hjl.1]; rfl)
      · intro j hj
        rw [workerStates, workerTrace] at hj
        rcases mem_scanl_append _ _ _ _ _ hj with h | h
        · rcases mem_scanl_append _ _ _ _ _ h with h' | h'
          · obtain ⟨h1, h2, _⟩ := mem_pre c j h'
            exact ⟨h1, h2⟩
          · rw [foldl_preEvents] at h'
            obtain ⟨h1, h2⟩ := hloop.2 j h'
            exact ⟨h1, by linarith⟩
        · rw [List.foldl_append, foldl_preEvents] at h
          exact mem_post t w _ hjl.2.1 hjl.2.2 j h
  | downloadError msg =>
      constructor
      · rw [workerStates_downloadError]
        norm_num [List.chain'_cons, List.chain'_singleton, progStep, isTerminal,
          initialJobState]
      · intro j hj
        rw [workerStates_downloadError] at hj
        simp only [List.mem_cons, List.not_mem_nil, or_false] at hj
        rcases hj with rfl | rfl | rfl | rfl <;> norm_num [initialJobState]
  | fileNotFound =>
      constructor
      · rw [workerStates_fileNotFound]
        norm_num [List.chain'_cons, List.chain'_singleton, progStep, isTerminal,
          initialJobState]
      · intro j hj
        rw [workerStates_fileNotFound] at hj
        simp only [List.mem_cons, List.not_mem_nil, or_false] at hj
        rcases hj with rfl | rfl | rfl | rfl | rfl <;> norm_num [initialJobState]
  | transcribeError msg =>
      have hjl := loopLast_facts el d c hel hch
      have hloop := loop_chain_from_transcribing el d c hel hch
      constructor
      · rw [workerStates, workerTrace]
        refine chain_scanl_append progStep _ _ _ _ ?_ ?_
        · refine chain_scanl_append progStep _ preEvents _ _ (chain_pre c) ?_
          rw [foldl_preEvents]
          exact hloop.1
        · rw [List.foldl_append, foldl_preEvents]
          rw [List.scanl_cons, List.scanl_nil, List.singleton_append,
            List.chain'_cons']
          refine ⟨fun y hy => ?_, List.chain'_singleton _⟩
          obtain rfl := by simpa using hy
          exact ⟨by simp [applyWorkerEventJS], by rw [hjl.1]; rfl⟩
      · intro j hj
        rw [workerStates, workerTrace] at hj
        rcases mem_scanl_append _ _ _ _ _ hj with h | h
        · rcases mem_scanl_append _ _ _ _ _ h with h' | h'
          · obtain ⟨h1, h2, _⟩ := mem_pre c j h'
            exact ⟨h1, h2⟩
          · rw [foldl_preEvents] at h'
            obtain ⟨h1, h2⟩ := hloop.2 j h'
            exact ⟨h1, by linarith⟩
        · rw [List.foldl_append, foldl_preEvents] at h
          rw [List.scanl_cons, List.scanl_nil, List.singleton_append] at h
          rcases List.mem_cons.mp h with rfl | h''
          · exact ⟨hjl.2.1, by linarith [hjl.2.2]⟩
          · obtain rfl := by simpa using h''
            refine ⟨by simpa [applyWorkerEventJS] using hjl.2.1, ?_⟩
            have := hjl.2.2
            simp only [applyWorkerEventJS]
            linarith

theorem worker_final (o : WorkerOutcome) (el : List ℚ) (d : ℚ) (c : String) :
    isTerminal (List.foldl applyWorkerEventJS (initialJobState c)
        (workerTrace o el d)).status = true ∧
    ((List.foldl applyWorkerEventJS (initialJobState c)
        (workerTrace o el d)).status = Status.completed →
      (List.foldl applyWorkerEventJS (initialJobState c)
        (workerTrace o el d)).progress = 100) ∧
    ((List.foldl applyWorkerEventJS (initialJobState c)
        (workerTrace o el d)).status = Status.failed →
      (List.foldl applyWorkerEventJS (initialJobState c)
        (workerTrace o el d)).progress =
      (List.foldl applyWorkerEventJS (initialJobState c)
        (workerTrace o el d).dropLast).progress) := by
  cases o with
  | success t w =>
      rw [workerTrace, List.foldl_append, List.foldl_append, foldl_preEvents,
        foldl_postEvents]
      exact ⟨rfl, fun _ => rfl, fun h => Status.noConfusion h⟩
  | downloadError msg =>
      exact ⟨rfl, fun h => Status.noConfusion h, fun _ => rfl⟩
  | fileNotFound =>
      exact ⟨rfl, fun h => Status.noConfusion h, fun _ => rfl⟩
  | transcribeError msg =>
      have hdrop : (workerTrace (WorkerOutcome.transcribeError msg) el d).dropLast =
          preEvents ++ loopUpdates el d := by
        rw [workerTrace, List.dropLast_concat]
      rw [workerTrace, List.foldl_append, List.foldl_append, foldl_preEvents]
      rw [workerTrace] at hdrop
      refine ⟨by simp [List.foldl_cons, List.foldl_nil, applyWorkerEventJS, isTerminal],
        ?_, ?_⟩
      · intro h
        simp only [List.foldl_cons, List.foldl_nil, applyWorkerEventJS] at h
        exact Status.noConfusion h
      · intro _
        rw [hdrop, List.foldl_append, foldl_preEvents]
        simp [List.foldl_cons, List.foldl_nil, applyWorkerEventJS]

theorem scanl_store_proj (k : String) :
    ∀ (tr : List WorkerEvent) (s : Jobs) (j : JobState), lookupJob s k = some j →
      (List.scanl (applyWorkerEvent k) s tr).map (fun x => lookupJob x k) =
        (List.scanl applyWorkerEventJS j tr).map some
  | [], s, j, h => by simp [List.scanl_nil, h]
  | e :: tr, s, j, h => by
      rw [List.scanl_cons, List.scanl_cons, List.singleton_append,
        List.singleton_append, List.map_cons, List.map_cons, h]
      refine congrArg (some j :: ·) ?_
      exact scanl_store_proj k tr (applyWorkerEvent k s e) (applyWorkerEventJS j e)
        (by rw [lookupJob_applyWorkerEvent, h]; rfl)

/-! ### The streamer's polling loop, unfolded one poll at a time -/

theorem streamLoop_cons (j : JobState) (rest : List (Option JobState))
    (lp : Int) (ls : Option Status) :
    streamLoop (some j :: rest) lp ls =
      if j.progress ≠ lp ∨ some j.status ≠ ls then
        StreamEvent.snapshot j.progress j.message j.status ::
          (if isTerminal j.status = true then [finalEvent j]
           else streamLoop rest j.progress (some j.status))
      else
        if isTerminal j.status = true then [finalEvent j]
        else streamLoop rest lp ls := rfl

/-! ### The timestamp format agrees with the specification's formula -/

theorem pyInt_intCast (n : ℤ) : pyInt ((n : ℤ) : ℚ) = n := by
  unfold pyInt
  split
  · exact Int.floor_intCast n
  · exact Int.ceil_intCast n

theorem pyMod_nonneg (a b : ℚ) (hb : 0 < b) : 0 ≤ pyMod a b := by
  unfold pyMod pyFloorDiv
  have h1 : ((⌊a / b⌋ : ℤ) : ℚ) ≤ a / b := Int.floor_le (a / b)
  have h2 : b * ((⌊a / b⌋ : ℤ) : ℚ) ≤ b * (a / b) :=
    mul_le_mul_of_nonneg_left h1 hb.le
  have h3 : b * (a / b) = a := by field_simp
  linarith

theorem format_timestamp_eq_spec (s : ℚ) (hs : 0 ≤ s) :
    format_timestamp s = formatTimestampSpec s := by
  have hh : pyInt (pyFloorDiv s 3600) = ⌊s / 3600⌋ := pyInt_intCast _
  have hm : pyInt (pyFloorDiv (pyMod s 3600) 60) =
      ⌊(s - 3600 * ((⌊s / 3600⌋ : ℤ) : ℚ)) / 60⌋ := pyInt_intCast _
  have hsec : pyInt (pyMod s 60) = ⌊s - 60 * ((⌊s / 60⌋ : ℤ) : ℚ)⌋ := by
    rw [pyInt_of_nonneg (pyMod_nonneg s 60 (by norm_num))]
    rfl
  have h0 : 0 ≤ ⌊s / 3600⌋ := Int.le_floor.mpr (by positivity)
  simp only [format_timestamp, formatTimestampSpec, hh, hm, hsec]
  by_cases hz : ⌊s / 3600⌋ = 0
  · rw [if_neg (by omega), if_pos hz]
  · rw [if_pos (by omega), if_neg hz]

/-! ### Write counts over a worker trace -/

theorem countP_loopUpdates (p : WorkerEvent → Bool)
    (hp : ∀ pr m st, p (WorkerEvent.update pr m st) = false) :
    ∀ (el : List ℚ) (d : ℚ), (loopUpdates el d).countP p = 0
  | [], _ => rfl
  | e :: el, d => by
      rw [loopUpdates_cons, List.countP_cons, countP_loopUpdates p hp el d]
      simp [hp]

theorem countP_result_le_one (o : WorkerOutcome) (el : List ℚ) (d : ℚ) :
    (workerTrace o el d).countP isResultWrite ≤ 1 := by
  cases o with
  | success t w =>
      rw [workerTrace, List.countP_append, List.countP_append,
        countP_loopUpdates isResultWrite (fun _ _ _ => rfl) el d]
      norm_num [preEvents, postEvents, List.countP_cons, isResultWrite]
  | downloadError msg =>
      rw [workerTrace]
      norm_num [List.countP_cons, isResultWrite]
  | fileNotFound =>
      rw [workerTrace]
      norm_num [List.countP_cons, isResultWrite]
  | transcribeError msg =>
      rw [workerTrace, List.countP_append, List.countP_append,
        countP_loopUpdates isResultWrite (fun _ _ _ => rfl) el d]
      norm_num [preEvents, List.countP_cons, isResultWrite]

theorem countP_error_le_one (o : WorkerOutcome) (el : List ℚ) (d : ℚ) :
    (workerTrace o el d).countP isErrorWrite ≤ 1 := by
  cases o with
  | success t w =>
      rw [workerTrace, List.countP_append, List.countP_append,
        countP_loopUpdates isErrorWrite (fun _ _ _ => rfl) el d]
      norm_num [preEvents, postEvents, List.countP_cons, isErrorWrite]
  | downloadError msg =>
      rw [workerTrace]
      norm_num [List.countP_cons, isErrorWrite]
  | fileNotFound =>
      rw [workerTrace]
      norm_num [List.countP_cons, isErrorWrite]
  | transcribeError msg =>
      rw [workerTrace, List.countP_append, List.countP_append,
        countP_loopUpdates isErrorWrite (fun _ _ _ => rfl) el d]
      norm_num [preEvents, List.countP_cons, isErrorWrite]


/-! ### The claims -/

/-- C1: across the whole sequence of updates written by the worker, a job's
`progress` is an integer in [0, 100] and non-decreasing until a terminal
status is reached; only the final state of a run is terminal; on `completed`
the final progress is 100 and on `failed` it is the last pre-failure value;
and the store-level run realizes exactly this sequence of job states. The
hypotheses say that the elapsed times observed by the estimation loop are
non-negative and non-decreasing, as wall-clock differences are. -/
theorem c1_progress_monotone_bounded (o : WorkerOutcome) (el : List ℚ) (d : ℚ)
    (c : String) (hel : ∀ e ∈ el, (0 : ℚ) ≤ e) (hch : el.Chain' (· ≤ ·)) :
    ProgressSpec o el d c := by
  obtain ⟨hchain, hbounds⟩ := worker_chain_bounds o el d c hel hch
  obtain ⟨hfin1, hfin2, hfin3⟩ := worker_final o el d c
  refine ⟨hbounds, hchain, hfin1, hfin2, hfin3, fun k => ?_⟩
  exact scanl_store_proj k _ _ _ (by simp [dictSet, lookupJob])

/-- Witness for C1 at a concrete run: a successful transcription with two
estimation-loop iterations at elapsed times 0 and 2 seconds. -/
theorem c1_progress_monotone_bounded_witness :
    ProgressSpec (WorkerOutcome.success "T" { text := "hi", segments := [] })
      [0, 2] 300 "t" :=
  c1_progress_monotone_bounded _ _ _ _
    (by
      intro e he
      simp only [List.mem_cons, List.not_mem_nil, or_false] at he
      rcases he with rfl | rfl <;> norm_num)
    (by norm_num [List.chain'_cons, List.chain'_singleton])

/-- C2 counterexample: in a concrete successful run, the state reached right
after the worker's `result` write (the first 8 store operations) already has
`result` set while its status is still `formatting`, a non-terminal status —
so `result` is written strictly before, not at, the terminal transition to
`completed`. -/
theorem c2_counterexample :
    (((workerTrace (WorkerOutcome.success "Ep" { text := "text", segments := [] })
          [] 300).take 8).foldl applyWorkerEventJS (initialJobState "t0")).result =
      some (mkResult "Ep" { text := "text", segments := [] }) ∧
    (((workerTrace (WorkerOutcome.success "Ep" { text := "text", segments := [] })
          [] 300).take 8).foldl applyWorkerEventJS (initialJobState "t0")).status =
      Status.formatting ∧
    isTerminal (((workerTrace (WorkerOutcome.success "Ep"
          { text := "text", segments := [] })
          [] 300).take 8).foldl applyWorkerEventJS (initialJobState "t0")).status =
      false :=
  ⟨rfl, rfl, rfl⟩

/-- C2 (amended): once a state of a worker run is terminal, exactly one of
`result`/`error` is non-empty — `result` exactly when `completed`, `error`
exactly when `failed`, never both and never neither; each of the two fields
is written by at most one store operation of the run; `error` is written only
by the terminal `failed` transition itself; `result`, however, is written in
a separate atomic update immediately before the `completed` transition, so it
is only ever non-empty in states whose status is `formatting` or
`completed`. -/
theorem c2_terminal_exclusivity (o : WorkerOutcome) (el : List ℚ) (d : ℚ)
    (c : String) : TerminalSpec o el d c := by
  have hfacts := worker_termOK o el d c
  refine ⟨?_, countP_result_le_one o el d, countP_error_le_one o el d, ?_, ?_⟩
  · intro j hj hterm
    obtain ⟨hc, hf, _, _⟩ := hfacts j hj
    cases hstatus : j.status <;> rw [hstatus] at hterm
    case completed => exact Or.inl ⟨rfl, (hc hstatus).1, (hc hstatus).2.1⟩
    case failed => exact Or.inr ⟨rfl, (hf hstatus).1, (hf hstatus).2⟩
    all_goals exact Bool.noConfusion hterm
  · intro j hj
    exact (hfacts j hj).2.2.1
  · intro j hj
    exact (hfacts j hj).2.2.2

/-- Witness for C2 at a concrete run: a failed download. -/
theorem c2_terminal_exclusivity_witness :
    TerminalSpec (WorkerOutcome.downloadError "boom") [] 300 "t" :=
  c2_terminal_exclusivity _ _ _ _

/-- C3: for every non-negative number of seconds, `format_timestamp` returns
exactly the string described by the specification (hours = floor(s/3600),
minutes = floor((s mod 3600)/60), seconds = floor(s mod 60), two-digit
zero-padding, hours omitted when zero), and it satisfies the spec's five
sample evaluations. -/
theorem c3_format_timestamp_correct :
    (∀ s : ℚ, 0 ≤ s → format_timestamp s = formatTimestampSpec s) ∧
    format_timestamp 0 = "00:00" ∧ format_timestamp 59 = "00:59" ∧
    format_timestamp 60 = "01:00" ∧ format_timestamp 3600 = "01:00:00" ∧
    format_timestamp 3661 = "01:01:01" := by
  refine ⟨format_timestamp_eq_spec, ?_, ?_, ?_, ?_, ?_⟩ <;>
    norm_num [format_timestamp, pyInt, pyFloorDiv, pyMod] <;> decide

/-- Witness for C3: the equality of the two formats evaluated at 3661. -/
theorem c3_format_timestamp_correct_witness :
    format_timestamp 3661 = formatTimestampSpec 3661 :=
  c3_format_timestamp_correct.1 3661 (by norm_num)

/-- C4: for every non-negative elapsed time, the progress value written by
one iteration of the worker's estimation loop equals the spec's formula
`30 + min(60, (elapsed / expectedDuration) * 60)` truncated to an integer
(with `expectedDuration = audio_duration * 1.2`), lies in [30, 90], equals 50
whenever the expected duration is non-positive, and is exactly the value the
loop's store update carries. -/
theorem c4_estimator_refines_spec (elapsed d : ℚ) (he : 0 ≤ elapsed) :
    estimateUpdate elapsed d = estimateSpec elapsed (d * (6 / 5)) ∧
    30 ≤ estimateUpdate elapsed d ∧ estimateUpdate elapsed d ≤ 90 ∧
    (d * (6 / 5) ≤ 0 → estimateUpdate elapsed d = 50) ∧
    loopUpdates [elapsed] d =
      [WorkerEvent.update (estimateUpdate elapsed d)
        ("Transcribing audio... (" ++ toString (pyInt elapsed) ++ "s elapsed)")
        Status.transcribing] := by
  obtain ⟨h1, h2⟩ := estimateUpdate_bounds elapsed d he
  refine ⟨?_, h1, h2, ?_, rfl⟩
  · unfold estimateUpdate estimate estimated_progress estimateSpec
    by_cases hq : 0 < d * (6 / 5)
    · rw [if_pos hq, if_neg (not_le.mpr hq)]
    · rw [if_neg hq, if_pos (not_lt.mp hq)]
      norm_num [pyInt]
  · intro hle
    unfold estimateUpdate estimate estimated_progress
    rw [if_neg (not_lt.mpr hle)]
    norm_num [pyInt]

/-- Witness for C4 at elapsed 60s, audio duration 250s. -/
theorem c4_estimator_refines_spec_witness :
    estimateUpdate 60 250 = estimateSpec 60 (250 * (6 / 5)) ∧
    30 ≤ estimateUpdate 60 250 ∧ estimateUpdate 60 250 ≤ 90 ∧
    ((250 : ℚ) * (6 / 5) ≤ 0 → estimateUpdate 60 250 = 50) ∧
    loopUpdates [60] 250 =
      [WorkerEvent.update (estimateUpdate 60 250)
        ("Transcribing audio... (" ++ toString (pyInt 60) ++ "s elapsed)")
        Status.transcribing] :=
  c4_estimator_refines_spec 60 250 (by norm_num)

/-- C5 counterexample: the estimator evaluated at elapsed 60, expected 100
returns 66 (= 30 + min(60, (60/100)*60) = 30 + 36), not approximately 36 as
the spec's sample claims; the sample forgot the 30-point base offset. -/
theorem c5_counterexample :
    estimate 60 100 = 66 ∧ estimate 60 100 ≠ 36 := by
  constructor <;> norm_num [estimate, estimated_progress, pyInt]

/-- C5 (amended): the estimator's sample evaluations are
`estimate(0, 100) = 30`, `estimate(60, 100) = 66`,
`estimate(1e6, 100) = 90` (clamped), `estimate(10, 0) = 50`. -/
theorem c5_estimator_samples :
    estimate 0 100 = 30 ∧ estimate 60 100 = 66 ∧
    estimate 1000000 100 = 90 ∧ estimate 10 0 = 50 := by
  refine ⟨?_, ?_, ?_, ?_⟩ <;>
    norm_num [estimate, estimated_progress, pyInt, min_def]

/-- C6: if two consecutive polls of the streamer observe states with the same
(status, progress) pair — the messages and all other fields may differ — the
second poll emits nothing: the whole stream is the same as if the second
observation had not happened. -/
theorem c6_stream_dedup (j1 j2 : JobState) (rest : List (Option JobState))
    (lp : Int) (ls : Option Status) (hs : j2.status = j1.status)
    (hp : j2.progress = j1.progress) (hterm : isTerminal j1.status = false) :
    streamLoop (some j1 :: some j2 :: rest) lp ls =
      streamLoop (some j1 :: rest) lp ls := by
  by_cases hc : j1.progress ≠ lp ∨ some j1.status ≠ ls
  · rw [streamLoop_cons j1 (some j2 :: rest) lp ls, streamLoop_cons j1 rest lp ls,
      if_pos hc, if_pos hc, hterm]
    simp only [Bool.false_eq_true, if_false]
    rw [streamLoop_cons]
    have hnc : ¬(j2.progress ≠ j1.progress ∨ some j2.status ≠ some j1.status) := by
      push_neg
      exact ⟨hp, by rw [hs]⟩
    rw [if_neg hnc, hs, hterm]
    simp
  · rw [streamLoop_cons j1 (some j2 :: rest) lp ls, streamLoop_cons j1 rest lp ls,
      if_neg hc, if_neg hc, hterm]
    simp only [Bool.false_eq_true, if_false]
    push_neg at hc
    rw [streamLoop_cons]
    have hnc : ¬(j2.progress ≠ lp ∨ some j2.status ≠ ls) := by
      push_neg
      exact ⟨by rw [hp, hc.1], by rw [hs, hc.2]⟩
    rw [if_neg hnc, hs, hterm]
    simp

/-- Witness for C6: two polls observing progress 42, status `transcribing`,
with different messages, emit a single snapshot. -/
theorem c6_stream_dedup_witness :
    streamLoop
        [some { status := Status.transcribing, progress := 42, message := "a",
                result := none, error := none, created_at := "t" },
         some { status := Status.transcribing, progress := 42, message := "b",
                result := none, error := none, created_at := "t" }] (-1) none =
      streamLoop
        [some { status := Status.transcribing, progress := 42, message := "a",
                result := none, error := none, created_at := "t" }] (-1) none :=
  c6_stream_dedup _ _ _ _ _ rfl rfl rfl

/-- C7: for a job id absent from the store at stream start, the stream is
exactly one "not found" event, whatever states later polls would have
observed: no polling happens and nothing else is emitted. -/
theorem c7_unknown_id_not_found (jobs0 : Jobs) (job_id : String)
    (obs : List (Option JobState)) (h : lookupJob jobs0 job_id = none) :
    progressStream jobs0 job_id obs = [StreamEvent.notFound] := by
  rw [progressStream, if_pos h]

/-- Witness for C7: an empty store and a non-empty observation list. -/
theorem c7_unknown_id_not_found_witness :
    progressStream [] "zzzz9999" [some (initialJobState "t"), none] =
      [StreamEvent.notFound] :=
  c7_unknown_id_not_found _ _ _ rfl

/-- C8 counterexample: the formatting-to-completed transition is not atomic.
After the first 8 store operations of a concrete successful run — that is,
between the lock-protected `result` write and the separate lock-protected
status update — a reader serialized through the store's lock observes
`result` already set while `status` is still `formatting`, not
`completed`. -/
theorem c8_counterexample :
    lookupJob
        (((workerTrace (WorkerOutcome.success "T8" { text := "t", segments := [] })
              [] 120).take 8).foldl (applyWorkerEvent "job8")
          (dictSet [] "job8" (initialJobState "c8"))) "job8" =
      some { status := Status.formatting, progress := 95,
             message := "Finalizing...",
             result := some (mkResult "T8" { text := "t", segments := [] }),
             error := none, created_at := "c8" } ∧
    Status.formatting ≠ Status.completed :=
  ⟨rfl, by decide⟩

/-- C8 (amended): the worker sets `result` and the terminal `completed`
status in two separate consecutive atomic updates — the `result` write first,
then a single update carrying progress 100 and status `completed` — so a
reader may observe `result` set while the status is still `formatting`, but
every state whose status is `completed` already has `result` set. -/
theorem c8_result_before_completed (t : String) (w : WhisperResult)
    (el : List ℚ) (d : ℚ) (c : String) :
    workerTrace (WorkerOutcome.success t w) el d =
      (preEvents ++ loopUpdates el d ++
        [WorkerEvent.update 90 "Formatting transcript..." Status.formatting,
         WorkerEvent.update 95 "Finalizing..." Status.formatting]) ++
      [WorkerEvent.setResult (mkResult t w),
       WorkerEvent.update 100 "Transcription complete!" Status.completed] ∧
    ∀ j ∈ workerStates c (workerTrace (WorkerOutcome.success t w) el d),
      j.status = Status.completed → j.result.isSome = true := by
  constructor
  · rw [workerTrace, postEvents]
    simp [List.append_assoc]
  · intro j hj hc
    exact ((worker_termOK _ el d c j hj).1 hc).1

/-- Witness for C8 (amended) at a concrete run. -/
theorem c8_result_before_completed_witness :
    workerTrace (WorkerOutcome.success "W" { text := "x", segments := [] }) [] 10 =
      (preEvents ++ loopUpdates [] 10 ++
        [WorkerEvent.update 90 "Formatting transcript..." Status.formatting,
         WorkerEvent.update 95 "Finalizing..." Status.formatting]) ++
      [WorkerEvent.setResult (mkResult "W" { text := "x", segments := [] }),
       WorkerEvent.update 100 "Transcription complete!" Status.completed] ∧
    ∀ j ∈ workerStates "t" (workerTrace
        (WorkerOutcome.success "W" { text := "x", segments := [] }) [] 10),
      j.status = Status.completed → j.result.isSome = true :=
  c8_result_before_completed _ _ _ _ _

/-- C9 counterexample: creating a job under an id that is already present
does not fail — it silently overwrites the existing `JobState` with the fresh
initial state. -/
theorem c9_counterexample :
    lookupJob
        (createJob
          [("ab12cd34",
            { status := Status.transcribing, progress := 42, message := "m",
              result := none, error := none, created_at := "t0" })]
          "ab12cd34" "t1") "ab12cd34" = some (initialJobState "t1") ∧
    initialJobState "t1" ≠
      { status := Status.transcribing, progress := 42, message := "m",
        result := none, error := none, created_at := "t0" } :=
  ⟨rfl, by decide⟩

/-- C9 (amended): the job creation of the `/transcribe` route performs an
unconditional dict assignment: after `createJob jobs id c`, the entry under
`id` is the fresh initial state — replacing whatever was there, with no
error — and every other entry is unchanged. -/
theorem c9_create_overwrites (jobs : Jobs) (job_id created_at : String) :
    lookupJob (createJob jobs job_id created_at) job_id =
      some (initialJobState created_at) ∧
    ∀ k, k ≠ job_id →
      lookupJob (createJob jobs job_id created_at) k = lookupJob jobs k := by
  refine ⟨lookupJob_dictSet_self jobs job_id _, fun k hk => ?_⟩
  exact lookupJob_dictSet_ne jobs job_id k _ (fun h => hk h.symm)

/-- Witness for C9 (amended) on a store already holding the id. -/
theorem c9_create_overwrites_witness :
    lookupJob (createJob [("aa11bb22", initialJobState "t0")] "aa11bb22" "t1")
        "aa11bb22" = some (initialJobState "t1") ∧
    ∀ k, k ≠ "aa11bb22" →
      lookupJob (createJob [("aa11bb22", initialJobState "t0")] "aa11bb22" "t1") k =
        lookupJob [("aa11bb22", initialJobState "t0")] k :=
  c9_create_overwrites _ _ _

/-- C10: `update_job_progress` on an id absent from the store is a silent
no-op: it raises nothing and returns the store unchanged, entry for entry. -/
theorem c10_update_missing_id_noop (jobs : Jobs) (job_id : String) (p : Int)
    (m : String) (st : Status) (h : lookupJob jobs job_id = none) :
    update_job_progress jobs job_id p m st = jobs :=
  modifyJob_of_lookup_none jobs job_id _ h

/-- Witness for C10: updating an unknown id in a one-job store. -/
theorem c10_update_missing_id_noop_witness :
    update_job_progress [("aaaa1111", initialJobState "t")] "bbbb2222" 50 "x"
        Status.processing = [("aaaa1111", initialJobState "t")] :=
  c10_update_missing_id_noop _ _ _ _ _ (by decide)

end PodcastApp
